import Mathlib

/-!
Shallow embedding of the training/evaluation orchestration loop of
`src/main.py` (PixelCnnPP).  The embedding models the `train` function's
inner `train_loop` (lines 84-120), `test_loop` (lines 122-152) and the
epoch loop (lines 154-174), together with the data-loader/sampler
construction (lines 42-61).

Modelling conventions:

* Per-batch losses are exact rationals (`ℚ`); they stand for the float
  tensor values the code accumulates.  All claims compared here are
  equalities/inequalities of the computed quantities, which exact
  rationals settle faithfully.
* Every bits-per-dimension quantity in the code carries a common factor
  `1 / ln 2` (the `np.log(2.)` in the denominators).  Since `ln 2` is a
  fixed positive real, two logged values are equal (or one is zero, or
  the denominator is zero) iff the same holds with the `ln 2` factor
  removed.  The embedding therefore works with the values multiplied by
  `ln 2`: `deno` fields hold `count * batch_size * prod(shape)` and the
  logged value is `loss_sum / deno`.
* Fallible control flow is `Except String`: an empty loader makes the
  Python `for` body never run, so the later `del loss, output`
  (train) / `deno = batch_idx * ...` (test) raises `NameError`; a zero
  `print_every` or `save_interval` makes `%` raise `ZeroDivisionError`.
* Model parameters are abstract (`α`) and the per-batch optimizer step
  is an abstract function `α → ℚ → α`; `test_loop` contains no optimizer
  step, which the embedding mirrors by never touching `params` there.
* PyTorch autograd is enabled unless code runs under `torch.no_grad()`;
  `main.py` never uses it, so the ambient gradient mode at every
  `test_loop` call of the program is `true`.  `test_loop` records the
  ambient mode once per iterated batch in `gradFlags`.
* In `ℚ`, division by zero yields `0` where Python float division of a
  tensor by `0.0` yields `inf`/`nan`; no theorem below depends on the
  value of a quotient with zero denominator.
-/

namespace PCNN

/-- Run configuration: the fields of `pcnnpp.config` the orchestration
loop reads (`use_tpu`, `batch_size`, `print_every`, `save_interval`). -/
structure Config where
  useTpu : Bool
  batchSize : ℕ
  printEvery : ℕ
  saveInterval : ℕ
deriving DecidableEq, Repr

/-- One `writer.add_scalar(tag, value, index)` call. -/
structure LogEntry where
  tag : String
  idx : ℕ
  val : ℚ
deriving DecidableEq, Repr

/-- One `utils.save_image(..., path, nrow=..., padding=...)` call. -/
structure ImageSave where
  path : String
  nrow : ℕ
  pad : ℕ
deriving DecidableEq, Repr

/-- Checkpoint path, line 144: `'models/{}_{}.pth'.format(model_name, epoch)`. -/
def ckptPath (name : String) (epoch : ℕ) : String :=
  "models/" ++ name ++ "_" ++ toString epoch ++ ".pth"

/-- Sample-image path, line 150: `'images/{}_{}.png'.format(model_name, epoch)`. -/
def imgPath (name : String) (epoch : ℕ) : String :=
  "images/" ++ name ++ "_" ++ toString epoch ++ ".png"

/-- Training flush denominator, line 106 (with the common `ln 2` factor
removed): `print_every * config.batch_size * np.prod(input_shape)`. -/
def trainDeno (printEvery batchSize : ℕ) (shape : List ℕ) : ℕ :=
  printEvery * batchSize * shape.prod

/-- Test denominator, line 134 (with the common `ln 2` factor removed):
`batch_idx * config.batch_size * np.prod(input_shape)`, where after the
loop `batch_idx` is the index of the last batch, i.e. `batches - 1`.
Note it reads `config.batch_size` (the training batch size), not
`config.test_batch_size`. -/
def testDeno (batches batchSize : ℕ) (shape : List ℕ) : ℕ :=
  (batches - 1) * batchSize * shape.prod

/-- Mutable state of `train_loop`'s `for` loop: model parameters,
`train_loss`, `new_writes`, and the `train/bpd` scalars written so far. -/
structure TrainState (α : Type) where
  params : α
  trainLoss : ℚ
  newWrites : ℕ
  logs : List LogEntry
deriving Repr

/-- Body of `train_loop`'s `for` loop (lines 93-118) for one batch with
index `idx` and loss `loss`: optimizer step, `train_loss += loss`, and
on `(batch_idx + 1) % print_every == 0` a flush that logs
`train/bpd` at index `writes + new_writes` (only when not on TPU,
line 107), resets `train_loss` and increments `new_writes`. -/
def trainStep (cfg : Config) (shape : List ℕ) (writes : ℕ)
    (step : α → ℚ → α) (idx : ℕ) (loss : ℚ) (s : TrainState α) :
    TrainState α :=
  let p := step s.params loss
  let tl := s.trainLoss + loss
  if (idx + 1) % cfg.printEvery = 0 then
    { params := p
      trainLoss := 0
      newWrites := s.newWrites + 1
      logs := s.logs ++
        (if cfg.useTpu then [] else
          [⟨"train/bpd", writes + s.newWrites,
            tl / (trainDeno cfg.printEvery cfg.batchSize shape : ℚ)⟩]) }
  else
    { params := p, trainLoss := tl, newWrites := s.newWrites, logs := s.logs }

/-- The `for batch_idx, (input, _) in enumerate(data_loader)` loop of
`train_loop`, with `idx` the next value of `batch_idx`. -/
def trainGo (cfg : Config) (shape : List ℕ) (writes : ℕ)
    (step : α → ℚ → α) : ℕ → TrainState α → List ℚ → TrainState α
  | _, s, [] => s
  | idx, s, loss :: rest =>
      trainGo cfg shape writes step (idx + 1)
        (trainStep cfg shape writes step idx loss s) rest

/-- `train_loop(data_loader, writes)` (lines 84-120).  An empty loader
leaves `loss`/`output` unbound at the `del loss, output` on line 119,
a `NameError`; with batches present, `print_every == 0` raises
`ZeroDivisionError` at the first `(batch_idx + 1) % print_every`. -/
def trainLoop (cfg : Config) (shape : List ℕ) (writes : ℕ)
    (step : α → ℚ → α) (p0 : α) (losses : List ℚ) :
    Except String (TrainState α) :=
  if losses = [] then .error "NameError"
  else if cfg.printEvery = 0 then .error "ZeroDivisionError"
  else .ok (trainGo cfg shape writes step 0 ⟨p0, 0, 0, []⟩ losses)

/-- Result of one `test_loop` call: untouched parameters, accumulated
`test_loss`, the denominator of line 134 (in `ln 2` units), the
`test/bpd` scalar written, the checkpoint and sample-image files
written, and the ambient autograd mode recorded at each forward pass. -/
structure TestResult (α : Type) where
  params : α
  testLoss : ℚ
  deno : ℕ
  logs : List LogEntry
  ckpts : List String
  images : List ImageSave
  gradFlags : List Bool
deriving Repr

/-- Straight-line part of `test_loop` (lines 126-152) once the loader is
known non-empty and `save_interval` non-zero: sum the batch losses,
compute `deno = (batches - 1) * config.batch_size * np.prod(input_shape)`
(times `ln 2`, factored out), log `test/bpd` at index `writes`, and when
`(epoch + 1) % save_interval == 0` write the checkpoint and the sample
image grid (`nrow=5, padding=0`, lines 150-151).  No optimizer step
occurs, so `params` is returned unchanged; `gradEnabled` is the ambient
autograd mode, recorded once per batch. -/
def testCore (cfg : Config) (shape : List ℕ) (name : String)
    (epoch writes : ℕ) (gradEnabled : Bool) (params : α)
    (losses : List ℚ) : TestResult α :=
  let deno := testDeno losses.length cfg.batchSize shape
  { params := params
    testLoss := losses.sum
    deno := deno
    logs := [⟨"test/bpd", writes, losses.sum / (deno : ℚ)⟩]
    ckpts :=
      if (epoch + 1) % cfg.saveInterval = 0 then [ckptPath name epoch] else []
    images :=
      if (epoch + 1) % cfg.saveInterval = 0 then [⟨imgPath name epoch, 5, 0⟩]
      else []
    gradFlags := List.replicate losses.length gradEnabled }

/-- `test_loop(data_loader, writes)` (lines 122-152).  An empty loader
leaves `batch_idx` unbound at line 134, a `NameError`;
`save_interval == 0` raises `ZeroDivisionError` at line 143. -/
def testLoop (cfg : Config) (shape : List ℕ) (name : String)
    (epoch writes : ℕ) (gradEnabled : Bool) (params : α)
    (losses : List ℚ) : Except String (TestResult α) :=
  if losses = [] then .error "NameError"
  else if cfg.saveInterval = 0 then .error "ZeroDivisionError"
  else .ok (testCore cfg shape name epoch writes gradEnabled params losses)

/-- The batches one epoch sees: the training loader's and the test
loader's per-batch losses. -/
structure EpochData where
  trainLosses : List ℚ
  testLosses : List ℚ
deriving Repr

/-- Observable state of the whole run: model parameters, the `writes`
counter, all scalars logged, all files written, and the autograd mode
at every evaluation forward pass. -/
structure RunState (α : Type) where
  params : α
  writes : ℕ
  logs : List LogEntry
  ckpts : List String
  images : List ImageSave
  gradFlags : List Bool
deriving Repr

/-- One iteration of the epoch loop (lines 155-174): run `train_loop`;
on TPU its returned `(new_writes, train_loss)` is discarded (line 159)
while the parameter updates persist, otherwise `writes += new_writes`
(line 163); then run `test_loop` at the updated `writes` (the program
never disables autograd, so the ambient mode passed is `true`); finally
`writes += 1` (line 174).  The `scheduler.step(epoch)` call touches
only the learning rate and is not modelled. -/
def runEpoch (cfg : Config) (shape : List ℕ) (name : String)
    (step : α → ℚ → α) (epoch : ℕ) (d : EpochData) (s : RunState α) :
    Except String (RunState α) :=
  match trainLoop cfg shape s.writes step s.params d.trainLosses with
  | .error msg => .error msg
  | .ok ts =>
    let w1 := if cfg.useTpu then s.writes else s.writes + ts.newWrites
    match testLoop cfg shape name epoch w1 true ts.params d.testLosses with
    | .error msg => .error msg
    | .ok tr =>
      .ok { params := tr.params
            writes := w1 + 1
            logs := s.logs ++ ts.logs ++ tr.logs
            ckpts := s.ckpts ++ tr.ckpts
            images := s.images ++ tr.images
            gradFlags := s.gradFlags ++ tr.gradFlags }

/-- `for epoch in range(...)` from epoch index `epoch` over the
remaining per-epoch data. -/
def runFrom (cfg : Config) (shape : List ℕ) (name : String)
    (step : α → ℚ → α) : ℕ → RunState α → List EpochData →
    Except String (RunState α)
  | _, s, [] => .ok s
  | epoch, s, d :: rest =>
    match runEpoch cfg shape name step epoch d s with
    | .error msg => .error msg
    | .ok s2 => runFrom cfg shape name step (epoch + 1) s2 rest

/-- The whole epoch loop of `train` (lines 154-174): `writes = 0`, then
one training pass and one evaluation pass per epoch; `data` supplies the
loaders' batches for each of the `max_epochs = data.length` epochs. -/
def run (cfg : Config) (shape : List ℕ) (name : String)
    (step : α → ℚ → α) (p0 : α) (data : List EpochData) :
    Except String (RunState α) :=
  runFrom cfg shape name step 0 ⟨p0, 0, [], [], [], []⟩ data

/-- A `torch.utils.data.distributed.DistributedSampler(dataset, ...)`
value: the dataset it was constructed over and its sharding arguments. -/
structure DistSampler (δ : Type) where
  dataset : δ
  numReplicas : ℕ
  rank : ℕ
  shuffle : Bool
deriving Repr

/-- A `get_dataloader(sampler=..., shuffle=..., batch_size=...)` result,
keeping the dataset it loads from and the sampler it was given. -/
structure Loader (δ : Type) where
  dataset : δ
  sampler : Option (DistSampler δ)
  shuffle : Bool
  batchSize : ℕ
deriving Repr

/-- Loader construction of `train` (lines 42-61): on TPU both
`DistributedSampler`s are built — the one handed to the *test* loader
over `dataset_train` (line 53) — and each loader is created with
`shuffle = not config.use_tpu`; the train loader batches with
`config.batch_size`, the test loader with `config.test_batch_size`. -/
def mkLoaders (useTpu : Bool) (world rank : ℕ) (dtrain dtest : δ)
    (batchSize testBatchSize : ℕ) : Loader δ × Loader δ :=
  let trainSampler :=
    if useTpu then some ⟨dtrain, world, rank, true⟩ else none
  let testSampler :=
    if useTpu then some ⟨dtrain, world, rank, true⟩ else none
  (⟨dtrain, trainSampler, !useTpu, batchSize⟩,
   ⟨dtest, testSampler, !useTpu, testBatchSize⟩)

/-- Spec formula for the test metric (§4.2), with the common `ln 2`
factor removed: `loss_sum / (N_examples * D)` where `N_examples` is the
exact cumulative number of test examples and `D` the product of the
per-example input dimensions. -/
def specTestBpd (lossSum : ℚ) (nExamples : ℕ) (shape : List ℕ) : ℚ :=
  lossSum / ((nExamples * shape.prod : ℕ) : ℚ)

/-- Total number of training flushes a single-device run performs:
`train_loop` flushes once every `print_every` batches, i.e.
`batches / print_every` times per epoch. -/
def totalFlushes (printEvery : ℕ) (data : List EpochData) : ℕ :=
  (data.map fun d => d.trainLosses.length / printEvery).sum

/-- The `(tag, index)` pairs of the scalars a TPU-mode run logs from
write index `w` over `n` epochs: one `test/bpd` entry per epoch. -/
def testTags (w n : ℕ) : List (String × ℕ) :=
  (List.range n).map fun i => ("test/bpd", w + i)

/-! ### Arithmetic helpers -/

theorem succ_mod_eq (p idx : ℕ) (hp : 0 < p) :
    (idx + 1) % p = if idx % p + 1 = p then 0 else idx % p + 1 := by
  have e : idx % p + 1 + p * (idx / p) = idx + 1 := by
    have h := Nat.mod_add_div idx p
    omega
  have h1 : (idx + 1) % p = (idx % p + 1) % p := by
    rw [← e, Nat.add_mul_mod_self_left]
  have ha : idx % p < p := Nat.mod_lt _ hp
  rw [h1]
  split
  · next h => rw [h, Nat.mod_self]
  · next h => exact Nat.mod_eq_of_lt (by omega)

theorem sum_take_mono (l : List ℕ) (m n : ℕ) (h : m ≤ n) :
    (l.take m).sum ≤ (l.take n).sum := by
  have e : l.take n = l.take m ++ (l.drop m).take (n - m) := by
    rw [← List.take_add]
    congr 1
    omega
  rw [e, List.sum_append]
  exact Nat.le_add_right _ _

/-! ### Properties of the training pass -/

theorem trainStep_params (cfg : Config) (shape : List ℕ) (w : ℕ)
    (step : α → ℚ → α) (idx : ℕ) (x : ℚ) (s : TrainState α) :
    (trainStep cfg shape w step idx x s).params = step s.params x := by
  unfold trainStep
  split <;> rfl

theorem trainStep_newWrites_flush (cfg : Config) (shape : List ℕ) (w : ℕ)
    (step : α → ℚ → α) (idx : ℕ) (x : ℚ) (s : TrainState α)
    (h : (idx + 1) % cfg.printEvery = 0) :
    (trainStep cfg shape w step idx x s).newWrites = s.newWrites + 1 := by
  unfold trainStep
  rw [if_pos h]

theorem trainStep_newWrites_noflush (cfg : Config) (shape : List ℕ) (w : ℕ)
    (step : α → ℚ → α) (idx : ℕ) (x : ℚ) (s : TrainState α)
    (h : ¬ (idx + 1) % cfg.printEvery = 0) :
    (trainStep cfg shape w step idx x s).newWrites = s.newWrites := by
  unfold trainStep
  rw [if_neg h]

theorem trainStep_trainLoss_flush (cfg : Config) (shape : List ℕ) (w : ℕ)
    (step : α → ℚ → α) (idx : ℕ) (x : ℚ) (s : TrainState α)
    (h : (idx + 1) % cfg.printEvery = 0) :
    (trainStep cfg shape w step idx x s).trainLoss = 0 := by
  unfold trainStep
  rw [if_pos h]

theorem trainStep_trainLoss_noflush (cfg : Config) (shape : List ℕ) (w : ℕ)
    (step : α → ℚ → α) (idx : ℕ) (x : ℚ) (s : TrainState α)
    (h : ¬ (idx + 1) % cfg.printEvery = 0) :
    (trainStep cfg shape w step idx x s).trainLoss = s.trainLoss + x := by
  unfold trainStep
  rw [if_neg h]

theorem trainGo_params (cfg : Config) (shape : List ℕ) (w : ℕ)
    (step : α → ℚ → α) (l : List ℚ) (idx : ℕ) (s : TrainState α) :
    (trainGo cfg shape w step idx s l).params = l.foldl step s.params := by
  induction l generalizing idx s with
  | nil => rfl
  | cons x rest ih =>
    simp only [trainGo, List.foldl_cons, ih, trainStep_params]

theorem trainGo_logs_tpu (cfg : Config) (shape : List ℕ) (w : ℕ)
    (step : α → ℚ → α) (htpu : cfg.useTpu = true) (l : List ℚ) (idx : ℕ)
    (s : TrainState α) :
    (trainGo cfg shape w step idx s l).logs = s.logs := by
  induction l generalizing idx s with
  | nil => rfl
  | cons x rest ih =>
    simp only [trainGo, ih]
    unfold trainStep
    split <;> simp [htpu]

theorem trainGo_newWrites (cfg : Config) (shape : List ℕ) (w : ℕ)
    (step : α → ℚ → α) (hp : 0 < cfg.printEvery) (l : List ℚ) (idx : ℕ)
    (s : TrainState α) :
    (trainGo cfg shape w step idx s l).newWrites =
      s.newWrites + (idx % cfg.printEvery + l.length) / cfg.printEvery := by
  induction l generalizing idx s with
  | nil =>
    simp only [trainGo, List.length_nil, Nat.add_zero]
    rw [Nat.div_eq_of_lt (Nat.mod_lt _ hp)]
    omega
  | cons x rest ih =>
    simp only [trainGo, ih, List.length_cons]
    by_cases hf : idx % cfg.printEvery + 1 = cfg.printEvery
    · have h0 : (idx + 1) % cfg.printEvery = 0 := by
        rw [succ_mod_eq _ _ hp, if_pos hf]
      rw [trainStep_newWrites_flush _ _ _ _ _ _ _ h0, h0]
      have e1 : idx % cfg.printEvery + (rest.length + 1) =
          rest.length + cfg.printEvery := by omega
      rw [e1, Nat.add_div_right _ hp, Nat.zero_add]
      omega
    · have h0 : (idx + 1) % cfg.printEvery = idx % cfg.printEvery + 1 := by
        rw [succ_mod_eq _ _ hp, if_neg hf]
      rw [trainStep_newWrites_noflush _ _ _ _ _ _ _ (by omega), h0]
      have e1 : idx % cfg.printEvery + 1 + rest.length =
          idx % cfg.printEvery + (rest.length + 1) := by omega
      rw [e1]

theorem trainGo_trainLoss (cfg : Config) (shape : List ℕ) (w : ℕ)
    (step : α → ℚ → α) (hp : 0 < cfg.printEvery) (l : List ℚ) (idx : ℕ)
    (s : TrainState α) :
    (trainGo cfg shape w step idx s l).trainLoss =
      if idx % cfg.printEvery + l.length < cfg.printEvery then
        s.trainLoss + l.sum
      else
        (l.drop (l.length -
          (idx % cfg.printEvery + l.length) % cfg.printEvery)).sum := by
  induction l generalizing idx s with
  | nil =>
    rw [if_pos (by simpa using Nat.mod_lt idx hp)]
    simp [trainGo]
  | cons x rest ih =>
    simp only [trainGo, ih, List.length_cons]
    by_cases hf : idx % cfg.printEvery + 1 = cfg.printEvery
    · have h0 : (idx + 1) % cfg.printEvery = 0 := by
        rw [succ_mod_eq _ _ hp, if_pos hf]
      rw [trainStep_trainLoss_flush _ _ _ _ _ _ _ h0, h0]
      simp only [Nat.zero_add, zero_add]
      have hge : ¬ idx % cfg.printEvery + (rest.length + 1) <
          cfg.printEvery := by omega
      rw [if_neg hge]
      have e1 : idx % cfg.printEvery + (rest.length + 1) =
          rest.length + cfg.printEvery := by omega
      rw [e1, Nat.add_mod_right]
      by_cases hm : rest.length < cfg.printEvery
      · rw [if_pos hm, Nat.mod_eq_of_lt hm]
        have e2 : rest.length + 1 - rest.length = 0 + 1 := by omega
        rw [e2, List.drop_succ_cons, List.drop_zero]
      · rw [if_neg hm]
        have hr : rest.length % cfg.printEvery ≤ rest.length :=
          Nat.mod_le _ _
        have e2 : rest.length + 1 - rest.length % cfg.printEvery =
            (rest.length - rest.length % cfg.printEvery) + 1 := by omega
        rw [e2, List.drop_succ_cons]
    · have h0 : (idx + 1) % cfg.printEvery = idx % cfg.printEvery + 1 := by
        rw [succ_mod_eq _ _ hp, if_neg hf]
      rw [trainStep_trainLoss_noflush _ _ _ _ _ _ _ (by omega), h0]
      have e1 : idx % cfg.printEvery + 1 + rest.length =
          idx % cfg.printEvery + (rest.length + 1) := by omega
      rw [e1]
      by_cases hlt : idx % cfg.printEvery + (rest.length + 1) <
          cfg.printEvery
      · rw [if_pos hlt, if_pos hlt, List.sum_cons]
        ring
      · rw [if_neg hlt, if_neg hlt]
        have hmp : idx % cfg.printEvery < cfg.printEvery := Nat.mod_lt _ hp
        have hle : cfg.printEvery ≤
            idx % cfg.printEvery + (rest.length + 1) := by omega
        have hr : (idx % cfg.printEvery + (rest.length + 1)) %
            cfg.printEvery ≤ rest.length := by
          rw [Nat.mod_eq_sub_mod hle]
          have := Nat.mod_le
            (idx % cfg.printEvery + (rest.length + 1) - cfg.printEvery)
            cfg.printEvery
          omega
        have e2 : rest.length + 1 -
            (idx % cfg.printEvery + (rest.length + 1)) % cfg.printEvery =
            (rest.length -
              (idx % cfg.printEvery + (rest.length + 1)) % cfg.printEvery)
              + 1 := by omega
        rw [e2, List.drop_succ_cons]

/-! ### Properties of the epoch loop -/

theorem runEpoch_ok (cfg : Config) (shape : List ℕ) (name : String)
    (step : α → ℚ → α) (e : ℕ) (d : EpochData) (s : RunState α)
    (hp : 0 < cfg.printEvery) (hk : 0 < cfg.saveInterval)
    (ht : d.trainLosses ≠ []) (he : d.testLosses ≠ []) :
    runEpoch cfg shape name step e d s =
      (let ts := trainGo cfg shape s.writes step 0
        ⟨s.params, 0, 0, []⟩ d.trainLosses
      let w1 := if cfg.useTpu then s.writes else s.writes + ts.newWrites
      let tr := testCore cfg shape name e w1 true ts.params d.testLosses
      .ok ⟨tr.params, w1 + 1, s.logs ++ ts.logs ++ tr.logs,
        s.ckpts ++ tr.ckpts, s.images ++ tr.images,
        s.gradFlags ++ tr.gradFlags⟩) := by
  have hp2 : ¬ cfg.printEvery = 0 := by omega
  have hk2 : ¬ cfg.saveInterval = 0 := by omega
  simp only [runEpoch, trainLoop, testLoop, if_neg ht, if_neg hp2,
    if_neg he, if_neg hk2]

theorem runFrom_writes (cfg : Config) (shape : List ℕ) (name : String)
    (step : α → ℚ → α) (hp : 0 < cfg.printEvery)
    (hk : 0 < cfg.saveInterval) (data : List EpochData) (e : ℕ)
    (s : RunState α)
    (hne : ∀ d ∈ data, d.trainLosses ≠ [] ∧ d.testLosses ≠ []) :
    (runFrom cfg shape name step e s data).map (fun s2 => s2.writes) =
      .ok (s.writes + data.length +
        if cfg.useTpu then 0 else totalFlushes cfg.printEvery data) := by
  induction data generalizing e s with
  | nil => simp [runFrom, Except.map, totalFlushes]
  | cons d rest ih =>
    obtain ⟨ht, he⟩ := hne d (List.mem_cons_self d rest)
    have hne2 : ∀ d2 ∈ rest, d2.trainLosses ≠ [] ∧ d2.testLosses ≠ [] :=
      fun d2 hd2 => hne d2 (List.mem_cons_of_mem d hd2)
    simp only [runFrom]
    rw [runEpoch_ok cfg shape name step e d s hp hk ht he]
    simp only
    rw [ih (e + 1) _ hne2]
    simp only [trainGo_newWrites cfg shape s.writes step hp, Nat.zero_mod,
      Nat.zero_add, List.length_cons, totalFlushes, List.map_cons,
      List.sum_cons]
    by_cases htpu : cfg.useTpu = true
    · simp only [if_pos htpu, Except.ok.injEq]
      omega
    · simp only [if_neg htpu, Except.ok.injEq]
      omega

theorem testTags_succ (w n : ℕ) :
    testTags w (n + 1) = ("test/bpd", w) :: testTags (w + 1) n := by
  simp only [testTags, List.range_succ_eq_map, List.map_cons, Nat.add_zero,
    List.map_map]
  congr 1
  apply List.map_congr_left
  intro i _
  simp only [Function.comp_apply, Prod.mk.injEq]
  exact ⟨by simp, by omega⟩

theorem runFrom_tpu (cfg : Config) (shape : List ℕ) (name : String)
    (step : α → ℚ → α) (htpu : cfg.useTpu = true)
    (hp : 0 < cfg.printEvery) (hk : 0 < cfg.saveInterval)
    (data : List EpochData) (e : ℕ) (s : RunState α)
    (hne : ∀ d ∈ data, d.trainLosses ≠ [] ∧ d.testLosses ≠ []) :
    (runFrom cfg shape name step e s data).map
        (fun s2 => (s2.writes, s2.logs.map fun l => (l.tag, l.idx))) =
      .ok (s.writes + data.length,
        s.logs.map (fun l => (l.tag, l.idx)) ++ testTags s.writes data.length) := by
  induction data generalizing e s with
  | nil => simp [runFrom, Except.map, testTags]
  | cons d rest ih =>
    obtain ⟨ht, he⟩ := hne d (List.mem_cons_self d rest)
    have hne2 : ∀ d2 ∈ rest, d2.trainLosses ≠ [] ∧ d2.testLosses ≠ [] :=
      fun d2 hd2 => hne d2 (List.mem_cons_of_mem d hd2)
    simp only [runFrom]
    rw [runEpoch_ok cfg shape name step e d s hp hk ht he]
    simp only [htpu, if_true]
    rw [ih (e + 1) _ hne2]
    simp only [trainGo_logs_tpu cfg shape s.writes step htpu,
      List.append_nil, testCore, List.length_cons, List.map_append,
      List.map_cons, List.map_nil, Except.ok.injEq, Prod.mk.injEq]
    rw [testTags_succ]
    constructor
    · omega
    · simp

/-! ### Claims -/

/-- C1: the claim states that the logged test bits-per-dimension equals
`loss_sum / (N_examples * D * ln 2)` with `N_examples` the exact
cumulative number of test examples.  The code instead divides by
`(num_test_batches - 1) * config.batch_size * D * ln 2` (line 134 uses
the last `batch_idx` and the training batch size).  Concretely: two
test batches of 4 examples each (`N_examples = 8`),
`config.batch_size = 4`, `D = 4`, per-batch loss 16: the code logs
`32 / (16 * ln 2) = 2 / ln 2` while the claimed formula gives
`32 / (32 * ln 2) = 1 / ln 2` (values shown with the common `ln 2`
factored out). -/
theorem c1_test_denominator_bug :
    (testLoop ⟨false, 4, 2, 1⟩ [1, 2, 2] "m" 0 0 true (0 : ℕ)
        [16, 16]).map (fun r => (r.deno, r.logs.map LogEntry.val)) =
      .ok (16, [2])
    ∧ specTestBpd (16 + 16) (2 * 4) [1, 2, 2] = 1
    ∧ (2 : ℚ) ≠ 1 := by
  refine ⟨?_, ?_, by norm_num⟩
  · simp [testLoop, testCore, testDeno, Except.map]
    norm_num
  · simp [specTestBpd]
    norm_num

/-- C2: the code has no guard on the bits-per-dimension denominator.
With an empty test loader the `for` body never binds `batch_idx`, so
line 134 raises a `NameError` (a crash, not a signalled configuration
error); with exactly one test batch the computed denominator is
`(1 - 1) * batch_size * D * ln 2 = 0` and the division is still
performed (in Python float arithmetic it yields `inf`/`nan`). -/
theorem c2_no_divide_guard :
    testLoop ⟨false, 4, 2, 1⟩ [1, 2, 2] "m" 0 0 true (0 : ℕ)
        ([] : List ℚ) = .error "NameError"
    ∧ (testLoop ⟨false, 4, 2, 1⟩ [1, 2, 2] "m" 0 0 true (0 : ℕ)
        [(5 : ℚ)]).map (fun r => r.deno) = .ok 0 :=
  ⟨rfl, rfl⟩

/-- C4: in each epoch's `test_loop` call the checkpoint and the sample
image are written iff `(epoch + 1) % save_interval = 0` (equivalently,
iff `epoch + 1` is a positive multiple of `save_interval`, i.e. at
epochs `k-1, 2k-1, ...`), the checkpoint at
`models/{model_name}_{epoch}.pth` and the image at
`images/{model_name}_{epoch}.png` with `nrow = 5` images per row and
`padding = 0`.  The epoch loop calls `test_loop` exactly once per
epoch index in `[0, max_epochs)`. -/
theorem c4_checkpoint_trigger (cfg : Config) (shape : List ℕ)
    (name : String) (e w : ℕ) (g : Bool) (p0 : α) (losses : List ℚ)
    (hk : 0 < cfg.saveInterval) (hne : losses ≠ []) :
    (testLoop cfg shape name e w g p0 losses).map
        (fun r => (r.ckpts, r.images)) =
      .ok (if (e + 1) % cfg.saveInterval = 0
        then ([ckptPath name e], [⟨imgPath name e, 5, 0⟩])
        else ([], []))
    ∧ ((e + 1) % cfg.saveInterval = 0 ↔
        ∃ m, 0 < m ∧ e + 1 = m * cfg.saveInterval) := by
  constructor
  · simp only [testLoop, if_neg hne,
      if_neg (show ¬ cfg.saveInterval = 0 by omega), testCore, Except.map]
    by_cases hc : (e + 1) % cfg.saveInterval = 0
    · rw [if_pos hc, if_pos hc, if_pos hc]
    · rw [if_neg hc, if_neg hc, if_neg hc]
  · constructor
    · intro hc
      obtain ⟨c, hc2⟩ := Nat.dvd_of_mod_eq_zero hc
      have hc0 : c ≠ 0 := by
        rintro rfl
        simp at hc2
      exact ⟨c, Nat.pos_of_ne_zero hc0, by rw [hc2, Nat.mul_comm]⟩
    · rintro ⟨m, hm, hme⟩
      rw [hme]
      exact Nat.mul_mod_left m _

/-- C4 witness: at `save_interval = 2` and `epoch = 1` the trigger
fires and the files are written with the specified names. -/
theorem c4_checkpoint_trigger_witness :
    0 < 2 ∧ ([1] : List ℚ) ≠ [] ∧
    ((testLoop ⟨false, 1, 1, 2⟩ [1] "m" 1 0 true (0 : ℕ) [1]).map
        (fun r => (r.ckpts, r.images)) =
      .ok (if (1 + 1) % 2 = 0
        then ([ckptPath "m" 1], [⟨imgPath "m" 1, 5, 0⟩])
        else ([], []))
    ∧ ((1 + 1) % 2 = 0 ↔ ∃ m, 0 < m ∧ 1 + 1 = m * 2)) :=
  ⟨by norm_num, by simp,
    c4_checkpoint_trigger (α := ℕ) ⟨false, 1, 1, 2⟩ [1] "m" 1 0 true 0
      [1] (by norm_num) (by simp)⟩

/-- C5 (amended): the evaluation pass leaves the model parameters
unchanged and the training pass's parameters are exactly the fold of
the per-batch optimizer step (no other code path mutates them); but
gradient computation is not disabled during evaluation: `test_loop`
runs every forward pass in the ambient autograd mode `g` it is entered
with (the source contains no `torch.no_grad()`). -/
theorem c5_params_frame (cfg : Config) (shape : List ℕ) (name : String)
    (step : α → ℚ → α) (e w w2 : ℕ) (g : Bool) (p0 : α)
    (testLosses trainLosses : List ℚ) (hk : 0 < cfg.saveInterval)
    (hp : 0 < cfg.printEvery) (hte : testLosses ≠ [])
    (htr : trainLosses ≠ []) :
    (testLoop cfg shape name e w g p0 testLosses).map
        (fun r => (r.params, r.gradFlags)) =
      .ok (p0, List.replicate testLosses.length g)
    ∧ (trainLoop cfg shape w2 step p0 trainLosses).map
        (fun t => t.params) = .ok (trainLosses.foldl step p0) := by
  constructor
  · simp [testLoop, if_neg hte,
      if_neg (show ¬ cfg.saveInterval = 0 by omega), testCore, Except.map]
  · simp only [trainLoop, if_neg htr,
      if_neg (show ¬ cfg.printEvery = 0 by omega), Except.map]
    rw [trainGo_params]

/-- C5 witness: a concrete evaluation pass over two batches entered
with autograd enabled keeps the parameters and records the ambient
mode at both forwards; a three-batch training pass folds the step. -/
theorem c5_params_frame_witness :
    0 < 1 ∧ ([1, 2] : List ℚ) ≠ [] ∧ ([1, 2, 3] : List ℚ) ≠ [] ∧
    ((testLoop ⟨false, 1, 1, 1⟩ [1] "m" 0 0 true (5 : ℤ) [1, 2]).map
        (fun r => (r.params, r.gradFlags)) =
      .ok ((5 : ℤ), List.replicate 2 true)
    ∧ (trainLoop ⟨false, 1, 1, 1⟩ [1] 0 (fun (a : ℤ) _ => a + 1) 5
        [1, 2, 3]).map (fun t => t.params) =
      .ok (([1, 2, 3] : List ℚ).foldl (fun (a : ℤ) _ => a + 1) 5)) :=
  ⟨by norm_num, by simp, by simp,
    c5_params_frame ⟨false, 1, 1, 1⟩ [1] "m" (fun (a : ℤ) _ => a + 1)
      0 0 0 true 5 [1, 2] [1, 2, 3] (by norm_num) (by norm_num)
      (by simp) (by simp)⟩

/-- C5 counterexample: the claim asserts the evaluation pass runs with
gradient computation disabled.  In the program the ambient autograd
mode is enabled (`main.py` never enters a `no_grad` context), so in a
concrete single-device run no evaluation forward pass has gradients
disabled: it is false that every recorded autograd flag is off. -/
theorem c5_counterexample :
    (run ⟨false, 1, 1, 1⟩ [1] "m" (fun (a : ℕ) _ => a) 0
        [⟨[1], [1, 1]⟩]).map
        (fun s => s.gradFlags.all fun b => !b) = .ok false := rfl

/-- C7 (amended): the training flush metric is scale-invariant — its
denominator `print_every * batch_size * D * ln 2` is the exact number
of examples in a flush window times `D * ln 2`, so any two window
shapes covering the same number of examples with the same window loss
log the same value — but the per-epoch test metric is not: with the
same four examples and the same total loss 6, four batches at batch
size 1 and two batches at batch size 2 give different values (`6/3`
vs `6/2`, with the common `ln 2` factored out), because the test
denominator is `(batches - 1) * batch_size * D * ln 2`. -/
theorem c7_train_scale_invariance :
    (∀ (lossSum : ℚ) (p1 b1 p2 b2 : ℕ) (shape : List ℕ),
      p1 * b1 = p2 * b2 →
      lossSum / (trainDeno p1 b1 shape : ℚ) =
        lossSum / (trainDeno p2 b2 shape : ℚ))
    ∧ (6 : ℚ) / (testDeno 4 1 [1] : ℚ) ≠
        (6 : ℚ) / (testDeno 2 2 [1] : ℚ) := by
  constructor
  · intro lossSum p1 b1 p2 b2 shape h
    simp only [trainDeno]
    rw [h]
  · norm_num [testDeno]

/-- C7 witness: window shapes `2 × 3` and `3 × 2` cover the same six
examples and produce the same training flush metric. -/
theorem c7_train_scale_invariance_witness :
    2 * 3 = 3 * 2 ∧
    (5 : ℚ) / (trainDeno 2 3 [7] : ℚ) =
      (5 : ℚ) / (trainDeno 3 2 [7] : ℚ) :=
  ⟨by norm_num,
    c7_train_scale_invariance.1 5 2 3 3 2 [7] (by norm_num)⟩

/-- C7 counterexample: two evaluation passes over the same examples
(`4 × 1 = 2 × 2`) with the same total loss 6 log different test
metric values: `2` with four batches at batch size 1, `3` with two
batches at batch size 2 (common `ln 2` factored out). -/
theorem c7_counterexample :
    (testLoop ⟨false, 1, 4, 1⟩ [1] "m" 0 0 true (0 : ℕ)
        [1, 2, 1, 2]).map (fun r => r.logs.map LogEntry.val) = .ok [2]
    ∧ (testLoop ⟨false, 2, 4, 1⟩ [1] "m" 0 0 true (0 : ℕ)
        [3, 3]).map (fun r => r.logs.map LogEntry.val) = .ok [3]
    ∧ 4 * 1 = 2 * 2
    ∧ (2 : ℚ) ≠ 3 := by
  refine ⟨?_, ?_, by norm_num, by norm_num⟩
  · simp [testLoop, testCore, testDeno, Except.map]
    norm_num
  · simp [testLoop, testCore, testDeno, Except.map]

/-- C9: in TPU mode the `DistributedSampler` handed to the test data
loader is constructed over `dataset_train` (line 53), not over
`dataset_test`: the sampler that selects each replica's evaluation
shard shards the training dataset (while the loader itself still reads
from `dataset_test`). -/
theorem c9_test_sampler_dataset (δ : Type) (world rank : ℕ)
    (dtrain dtest : δ) (batchSize testBatchSize : ℕ)
    (hne : dtrain ≠ dtest) :
    ((mkLoaders true world rank dtrain dtest batchSize
        testBatchSize).2.sampler).map DistSampler.dataset = some dtrain
    ∧ ((mkLoaders true world rank dtrain dtest batchSize
        testBatchSize).2.sampler).map DistSampler.dataset ≠ some dtest
    ∧ (mkLoaders true world rank dtrain dtest batchSize
        testBatchSize).2.dataset = dtest := by
  refine ⟨rfl, ?_, rfl⟩
  simp [mkLoaders, hne]

/-- C9 witness: with distinct datasets `0` (train) and `1` (test), the
test loader's sampler is over dataset `0`. -/
theorem c9_test_sampler_dataset_witness :
    (0 : ℕ) ≠ 1 ∧
    (((mkLoaders true 8 3 (0 : ℕ) 1 16 32).2.sampler).map
        DistSampler.dataset = some 0
    ∧ ((mkLoaders true 8 3 (0 : ℕ) 1 16 32).2.sampler).map
        DistSampler.dataset ≠ some 1
    ∧ (mkLoaders true 8 3 (0 : ℕ) 1 16 32).2.dataset = 1) :=
  ⟨by decide, c9_test_sampler_dataset ℕ 8 3 0 1 16 32 (by decide)⟩

/-- C10: `train_loop` returns (and the single-device epoch loop prints)
only the residual `train_loss` accumulated after the most recent flush
— the sum of the last `batches % print_every` batch losses — and in
particular `0` whenever `print_every` divides the number of training
batches. -/
theorem c10_residual_train_loss (cfg : Config) (shape : List ℕ)
    (w : ℕ) (step : α → ℚ → α) (p0 : α) (losses : List ℚ)
    (hp : 0 < cfg.printEvery) (hne : losses ≠ []) :
    (trainLoop cfg shape w step p0 losses).map (fun t => t.trainLoss) =
      .ok ((losses.drop
        (losses.length - losses.length % cfg.printEvery)).sum)
    ∧ (cfg.printEvery ∣ losses.length →
        (trainLoop cfg shape w step p0 losses).map
          (fun t => t.trainLoss) = .ok 0) := by
  have key : (trainLoop cfg shape w step p0 losses).map
      (fun t => t.trainLoss) =
      .ok ((losses.drop
        (losses.length - losses.length % cfg.printEvery)).sum) := by
    simp only [trainLoop, if_neg hne,
      if_neg (show ¬ cfg.printEvery = 0 by omega), Except.map]
    rw [trainGo_trainLoss _ _ _ _ hp]
    simp only [Nat.zero_mod, Nat.zero_add]
    by_cases hlt : losses.length < cfg.printEvery
    · rw [if_pos hlt, Nat.mod_eq_of_lt hlt]
      simp
    · rw [if_neg hlt]
  refine ⟨key, fun hdvd => ?_⟩
  rw [key]
  obtain ⟨c, hc⟩ := hdvd
  have h0 : losses.length % cfg.printEvery = 0 := by
    rw [hc]
    exact Nat.mul_mod_right _ _
  simp [h0, List.drop_length]

/-- C10 witness: three training batches with `print_every = 2` flush
once after the second batch; the returned loss is the third batch's
loss alone. -/
theorem c10_residual_train_loss_witness :
    0 < 2 ∧ ([1, 2, 3] : List ℚ) ≠ [] ∧
    (trainLoop ⟨false, 1, 2, 1⟩ [1] 0 (fun (a : ℕ) _ => a) 0
        [1, 2, 3]).map (fun t => t.trainLoss) = .ok 3 := by
  refine ⟨by norm_num, by simp, ?_⟩
  have h := (c10_residual_train_loss ⟨false, 1, 2, 1⟩ [1] 0
    (fun (a : ℕ) _ => a) 0 [1, 2, 3] (by norm_num) (by simp)).1
  rw [h]
  norm_num

/-- C3 (amended): over a whole run the `writes` counter ends at
`max_epochs` plus — in single-device mode only — the total number of
training flushes (`batches / print_every` per epoch); it is
non-decreasing across run prefixes.  In multi-replica (TPU) mode
`train_loop`'s returned flush count is discarded (line 159), so flushes
do not advance the write index there: it advances exactly once per
epoch, after the evaluation pass. -/
theorem c3_write_index (cfg : Config) (shape : List ℕ) (name : String)
    (step : α → ℚ → α) (p0 : α) (data : List EpochData)
    (hp : 0 < cfg.printEvery) (hk : 0 < cfg.saveInterval)
    (hne : ∀ d ∈ data, d.trainLosses ≠ [] ∧ d.testLosses ≠ []) :
    (run cfg shape name step p0 data).map (fun s => s.writes) =
      .ok (data.length +
        if cfg.useTpu then 0 else totalFlushes cfg.printEvery data)
    ∧ (∀ m n sm sn, m ≤ n →
        run cfg shape name step p0 (data.take m) = .ok sm →
        run cfg shape name step p0 (data.take n) = .ok sn →
        sm.writes ≤ sn.writes) := by
  constructor
  · have h := runFrom_writes cfg shape name step hp hk data 0
      ⟨p0, 0, [], [], [], []⟩ hne
    unfold run
    rw [h]
    simp only [Except.ok.injEq]
    omega
  · intro m n sm sn hmn hsm hsn
    have hsubm : ∀ d ∈ data.take m,
        d.trainLosses ≠ [] ∧ d.testLosses ≠ [] :=
      fun d hd => hne d ((List.take_sublist m data).subset hd)
    have hsubn : ∀ d ∈ data.take n,
        d.trainLosses ≠ [] ∧ d.testLosses ≠ [] :=
      fun d hd => hne d ((List.take_sublist n data).subset hd)
    have hm := runFrom_writes cfg shape name step hp hk (data.take m) 0
      ⟨p0, 0, [], [], [], []⟩ hsubm
    have hn := runFrom_writes cfg shape name step hp hk (data.take n) 0
      ⟨p0, 0, [], [], [], []⟩ hsubn
    unfold run at hsm hsn
    rw [hsm] at hm
    rw [hsn] at hn
    simp only [Except.map, Except.ok.injEq] at hm hn
    have hlen : (data.take m).length ≤ (data.take n).length := by
      simp only [List.length_take]
      exact min_le_min hmn (le_refl _)
    by_cases htpu : cfg.useTpu = true
    · rw [if_pos htpu] at hm hn
      omega
    · rw [if_neg htpu] at hm hn
      have hfl : totalFlushes cfg.printEvery (data.take m) ≤
          totalFlushes cfg.printEvery (data.take n) := by
        unfold totalFlushes
        rw [List.map_take, List.map_take]
        exact sum_take_mono _ m n hmn
      omega

/-- C3 witness: a single-device epoch of four training batches with
`print_every = 2` performs two flushes; the final write counter is
`2 + 1 = 3`, matching `max_epochs + totalFlushes`. -/
theorem c3_write_index_witness :
    0 < 2 ∧
    (run ⟨false, 1, 2, 1⟩ [1] "m" (fun (a : ℕ) _ => a) 0
        [⟨[1, 1, 1, 1], [1, 1]⟩]).map (fun s => s.writes) = .ok 3 := by
  refine ⟨by norm_num, ?_⟩
  have h := (c3_write_index ⟨false, 1, 2, 1⟩ [1] "m" (fun (a : ℕ) _ => a)
    0 [⟨[1, 1, 1, 1], [1, 1]⟩] (by norm_num) (by norm_num)
    (by intro d hd
        rw [List.mem_singleton] at hd
        subst hd
        exact ⟨by simp, by simp⟩)).1
  rw [h]
  rfl

/-- C3 counterexample: the claim asserts the write index also advances
once per training flush in multi-replica mode.  A TPU-mode run of one
epoch with `print_every = 1` and one training batch performs exactly
one flush, so the claim predicts a final write index of
`1 + 1 = 2`; the code discards `train_loop`'s flush count on TPU and
ends at `1`. -/
theorem c3_counterexample :
    (run ⟨true, 1, 1, 2⟩ [1] "m" (fun (a : ℕ) _ => a) 0
        [⟨[1], [1]⟩]).map (fun s => s.writes) = .ok 1
    ∧ totalFlushes 1 [⟨[1], [1]⟩] = 1
    ∧ (1 : ℕ) ≠ 1 + 1 :=
  ⟨rfl, rfl, by decide⟩

/-- C6 (amended): in the scenario `max_epochs = 1`, `save_interval = 1`,
`print_every = 2`, four training batches, two test batches, a
single-device run writes exactly one checkpoint and one sample image,
logs exactly two `train/bpd` entries (at write indices 0 and 1) and
one `test/bpd` entry (at write index 2); the write counter ends at 3
(it is incremented once more after the evaluation pass). -/
theorem c6_scenario :
    (run ⟨false, 1, 2, 1⟩ [1] "m" (fun (a : ℕ) _ => a + 1) 0
        [⟨[1, 1, 1, 1], [1, 1]⟩]).map
        (fun s =>
          (s.ckpts, s.images.map fun i => (i.path, i.nrow, i.pad),
            (s.logs.filter fun l => l.tag == "train/bpd").length,
            (s.logs.filter fun l => l.tag == "test/bpd").length,
            s.logs.map LogEntry.idx, s.writes)) =
      .ok (["models/m_0.pth"], [("images/m_0.png", 5, 0)], 2, 1,
        [0, 1, 2], 3) := rfl

/-- C6 counterexample: in the stated scenario the write index does not
end at 2: the run ends with the counter at 3 (the two flushes bring it
to 2, the test entry is logged at 2, and the post-evaluation increment
takes it to 3). -/
theorem c6_counterexample :
    (run ⟨false, 1, 2, 1⟩ [1] "m" (fun (a : ℕ) _ => a + 1) 0
        [⟨[1, 1, 1, 1], [1, 1]⟩]).map (fun s => s.writes) = .ok 3
    ∧ (3 : ℕ) ≠ 2 :=
  ⟨rfl, by decide⟩

/-- C8: in multi-replica (TPU) mode no `train/bpd` scalar is ever
written (the `add_scalar` on line 108 is guarded by
`not config.use_tpu`), the flush count returned by `train_loop` is
discarded by the epoch loop (line 159), the write index increases by
exactly one per epoch, and the `test/bpd` entry of epoch `e` is logged
at write index `e`: the whole log stream is exactly one `test/bpd`
entry per epoch at index equal to the epoch number. -/
theorem c8_tpu_run (cfg : Config) (shape : List ℕ) (name : String)
    (step : α → ℚ → α) (p0 : α) (data : List EpochData)
    (htpu : cfg.useTpu = true) (hp : 0 < cfg.printEvery)
    (hk : 0 < cfg.saveInterval)
    (hne : ∀ d ∈ data, d.trainLosses ≠ [] ∧ d.testLosses ≠ []) :
    (run cfg shape name step p0 data).map
        (fun s => (s.writes, s.logs.map fun l => (l.tag, l.idx))) =
      .ok (data.length,
        (List.range data.length).map fun e => ("test/bpd", e)) := by
  have h := runFrom_tpu cfg shape name step htpu hp hk data 0
    ⟨p0, 0, [], [], [], []⟩ hne
  unfold run
  rw [h]
  simp only [List.map_nil, List.nil_append, Nat.zero_add, testTags,
    Except.ok.injEq, Prod.mk.injEq]

/-- C8 witness: a two-epoch TPU run with `print_every = 1` (so each
epoch flushes) logs exactly the two `test/bpd` entries at write
indices 0 and 1 and ends with the write counter at 2. -/
theorem c8_tpu_run_witness :
    0 < 1 ∧
    (run ⟨true, 1, 1, 1⟩ [1] "m" (fun (a : ℕ) _ => a) 0
        [⟨[1], [1, 1]⟩, ⟨[1, 1], [1]⟩]).map
        (fun s => (s.writes, s.logs.map fun l => (l.tag, l.idx))) =
      .ok (2, [("test/bpd", 0), ("test/bpd", 1)]) := by
  refine ⟨by norm_num, ?_⟩
  have h := c8_tpu_run ⟨true, 1, 1, 1⟩ [1] "m" (fun (a : ℕ) _ => a) 0
    [⟨[1], [1, 1]⟩, ⟨[1, 1], [1]⟩] rfl (by norm_num) (by norm_num)
    (by intro d hd
        rcases List.mem_cons.mp hd with h1 | h1
        · subst h1
          exact ⟨by simp, by simp⟩
        · rw [List.mem_singleton] at h1
          subst h1
          exact ⟨by simp, by simp⟩)
  rw [h]
  rfl

end PCNN
